import Mathlib

/-!
Shallow embedding of the realtime collaboration hub of AppFlowy-Cloud:
the group cache and reaper (`libs/realtime/src/collaborate/group.rs`),
the HTTP access-control middleware (`src/middleware/access_control_mw.rs`)
and the casbin policy adapter (`src/biz/casbin/adapter.rs`),
together with theorems checking the natural-language specification
against these definitions.

Time is modelled in whole seconds (`Instant` / `elapsed().as_secs()`),
stateful code as explicit state passing, and the side effects relevant
to the spec (lock attempts, log calls, flushes, subscription stops,
cache evictions) as explicit event traces.
-/

namespace Realtime

/-- Embeds `CollabType` from `collab_entity` (the variants matched in
`CollabGroup::timeout_secs`, group.rs lines 302-309). -/
inductive CollabType where
  | Document
  | Database
  | DatabaseRow
  | WorkspaceDatabase
  | Folder
  | UserAwareness
deriving DecidableEq

/-- The state of one `CollabGroup<U>` (group.rs lines 198-212) that the
claims depend on: its `collab_type`, the keys of the `subscribers` map
(users are modelled by their numeric ids), and the `modified_at` instant
in seconds.  The replica, broadcast handle and subscription internals are
opaque to every claim. -/
structure CollabGroup where
  collab_type : CollabType
  subscribers : List Nat
  modified_at : Nat
deriving DecidableEq

/-- Embeds `CollabGroup::timeout_secs`, the `#[cfg(not(debug_assertions))]`
version (group.rs lines 302-309). -/
def timeout_secs_release : CollabType → Nat
  | CollabType.Document => 10 * 60
  | CollabType.Database | CollabType.DatabaseRow => 60 * 60
  | CollabType.WorkspaceDatabase | CollabType.Folder | CollabType.UserAwareness => 2 * 60 * 60

/-- Embeds `CollabGroup::timeout_secs`, the `#[cfg(debug_assertions)]` version
(group.rs lines 298-301). -/
def timeout_secs_debug : Nat := 2 * 60

/-- The two `cfg`-selected versions of `timeout_secs` combined, selected
by an explicit `debug_assertions` flag. -/
def timeout_secs (debug_assertions : Bool) (ct : CollabType) : Nat :=
  if debug_assertions then timeout_secs_debug else timeout_secs_release ct

/-- Embeds `Instant::elapsed().as_secs()` of `modified_at` at instant `now`. -/
def elapsed_secs (now : Nat) (g : CollabGroup) : Nat :=
  now - g.modified_at

/-- Embeds `CollabGroup::is_inactive` (group.rs lines 273-276):
`modified_at.elapsed().as_secs() > self.timeout_secs()`. -/
def is_inactive (debug_assertions : Bool) (now : Nat) (g : CollabGroup) : Bool :=
  elapsed_secs now g > timeout_secs debug_assertions g.collab_type

/-- Embeds `CollabGroup::is_empty` (group.rs lines 267-269). -/
def is_empty (g : CollabGroup) : Bool :=
  g.subscribers.isEmpty

/-- The `group_by_object_id` registry (group.rs line 22): a map from
object id to group, modelled as an association list whose order is the
iteration order of the `HashMap`. -/
abbrev CacheState := List (String × CollabGroup)

/-- Embeds `HashMap::get` on the registry. -/
def lookupGroup (st : CacheState) (oid : String) : Option CollabGroup :=
  st.lookup oid

/-- Embeds `HashMap::remove` on the registry. -/
def eraseGroup (st : CacheState) (oid : String) : CacheState :=
  st.filter (fun p => p.1 != oid)

/-- The observable effects of the cache operations, in the order they
are performed: lock-acquisition attempts, registry edits, the point the
write guard is dropped, `flush_collab`, the start and completion of each
`subscriber.stop().await`, `storage.remove_collab_cache`, and log calls. -/
inductive Ev where
  | tryWrite
  | removeEntry (oid : String)
  | releaseWrite
  | flushCollab (oid : String)
  | stopBegin (uid : Nat)
  | stopEnd (uid : Nat)
  | evictCache (oid : String)
  | insertEntry (oid : String)
  | logError
  | logWarn
  | logDebug
deriving DecidableEq

/-- The events of `for (_, subscriber) in subscribers.iter_mut() {
subscriber.stop().await }` (group.rs lines 116-118): each `stop` is
awaited to completion before the next one begins. -/
def stopSeq : List Nat → List Ev
  | [] => []
  | u :: rest => Ev.stopBegin u :: Ev.stopEnd u :: stopSeq rest

/-- Embeds `CollabGroupCache::remove_group` (group.rs lines 100-126).
`lockOk` is the outcome of the single `group_by_object_id.try_write()`
call, `subsLockOk` of `group.subscribers.try_write()`.  Returns the new
registry state and the trace of effects. -/
def remove_group (lockOk subsLockOk : Bool) (st : CacheState) (oid : String) :
    CacheState × List Ev :=
  if lockOk = false then
    -- `error!("Failed to acquire write lock to remove group"); return;`
    (st, [Ev.tryWrite, Ev.logError])
  else
    let group := lookupGroup st oid
    let st' := eraseGroup st oid
    -- `drop(group_by_object_id)` happens here, before any flush.
    match group with
    | some g =>
      let stops := if subsLockOk then stopSeq g.subscribers else []
      (st', [Ev.tryWrite, Ev.removeEntry oid, Ev.releaseWrite, Ev.flushCollab oid]
              ++ stops ++ [Ev.evictCache oid])
    | none =>
      (st', [Ev.tryWrite, Ev.removeEntry oid, Ev.releaseWrite, Ev.logError,
             Ev.evictCache oid])

/-- Embeds `CollabGroup::new` as called from `init_group` (group.rs lines
161-188, 218-231): a fresh group with no subscribers and
`modified_at = Instant::now()`. -/
def new_group (ct : CollabType) (now : Nat) : CollabGroup :=
  { collab_type := ct, subscribers := [], modified_at := now }

/-- The value `create_group_if_need` hands back to its caller.  The Rust
function returns `()` on every path; the type also has constructors for
the outcomes the specification describes (returning the existing group,
a `RegistryBusy` error) so that the specified behaviour is statable
against the embedded one. -/
inductive CreateReturn where
  | unit
  | existingGroup (g : CollabGroup)
  | registryBusy
deriving DecidableEq

/-- The caller-visible outcome of `create_group_if_need`: the registry
state, the effect trace, and the returned value. -/
structure CreateResult where
  state : CacheState
  trace : List Ev
  ret : CreateReturn
deriving DecidableEq

/-- Embeds `CollabGroupCache::create_group_if_need` (group.rs lines 128-150).
`lockOk` is the outcome of the single `try_write()` call. -/
def create_group_if_need (lockOk : Bool) (st : CacheState) (_uid : Int)
    (_workspace_id : String) (object_id : String) (ct : CollabType) (now : Nat) :
    CreateResult :=
  if lockOk = false then
    -- `error!("Failed to acquire write lock to create group")`
    { state := st, trace := [Ev.tryWrite, Ev.logError], ret := CreateReturn.unit }
  else if (lookupGroup st object_id).isSome then
    -- `warn!("Group for object_id already exists"); return;`
    { state := st, trace := [Ev.tryWrite, Ev.logWarn], ret := CreateReturn.unit }
  else
    { state := st ++ [(object_id, new_group ct now)],
      trace := [Ev.tryWrite, Ev.logDebug, Ev.insertEntry object_id],
      ret := CreateReturn.unit }

/-- The scan loop of `CollabGroupCache::tick` (group.rs lines 45-55):
push the id of every group for which `is_inactive()` holds, and break
once the accumulator's length exceeds 5. -/
def tickCollectAux (dbg : Bool) (now : Nat) :
    CacheState → List String → List String
  | [], acc => acc
  | (oid, g) :: rest, acc =>
    if is_inactive dbg now g then
      let acc2 := acc ++ [oid]
      if acc2.length > 5 then acc2 else tickCollectAux dbg now rest acc2
    else
      tickCollectAux dbg now rest acc

/-- The ids collected by one `tick` scan. -/
def tickCollect (dbg : Bool) (now : Nat) (st : CacheState) : List String :=
  tickCollectAux dbg now st []

/-- Embeds `CollabGroupCache::tick` (group.rs lines 44-62): scan under
`try_read` (`readOk`), then call `remove_group` on every collected id.
Returns the resulting registry state and the list of ids passed to
`remove_group`. -/
def tick (readOk writeOk subsOk dbg : Bool) (now : Nat) (st : CacheState) :
    CacheState × List String :=
  let ids := if readOk then tickCollect dbg now st else []
  (ids.foldl (fun s oid => (remove_group writeOk subsOk s oid).1) st, ids)

/-- Position of the first occurrence of an event in a trace. -/
def idxOf (e : Ev) : List Ev → Nat
  | [] => 0
  | x :: xs => if x = e then 0 else idxOf e xs + 1

/-- Holds when `e1` occurs in the trace, and its first occurrence is strictly
before the first occurrence of `e2`. -/
def occursBefore (e1 e2 : Ev) (t : List Ev) : Prop :=
  e1 ∈ t ∧ e2 ∈ t ∧ idxOf e1 t < idxOf e2 t

instance (e1 e2 : Ev) (t : List Ev) : Decidable (occursBefore e1 e2 t) := by
  unfold occursBefore; infer_instance

/-- Number of registry-lock acquisition attempts recorded in a trace. -/
def lockAttempts (t : List Ev) : Nat :=
  (t.filter (fun e => e == Ev.tryWrite)).length

/-- The effect trace `remove_group` produces when the registry lock and
the subscribers lock are both available and the group is present. -/
def removedTrace (oid : String) (subs : List Nat) : List Ev :=
  [Ev.tryWrite, Ev.removeEntry oid, Ev.releaseWrite, Ev.flushCollab oid]
    ++ stopSeq subs ++ [Ev.evictCache oid]

/-- A freshly modified group with no subscribers (the input on which the
reaper's documented no-subscriber rule and its code diverge). -/
def groupFresh : CollabGroup :=
  { collab_type := CollabType.Document, subscribers := [], modified_at := 1000 }

/-- A registry holding only `groupFresh` under id `"o1"`. -/
def regFresh : CacheState := [("o1", groupFresh)]

/-- A group with two subscribers, used to examine the stop order of
`remove_group`. -/
def groupTwoSubs : CollabGroup :=
  { collab_type := CollabType.Document, subscribers := [1, 2], modified_at := 0 }

/-- A registry holding only `groupTwoSubs` under id `"o"`. -/
def regTwo : CacheState := [("o", groupTwoSubs)]

/-- A long-inactive group (last modified at instant 0). -/
def groupStale : CollabGroup :=
  { collab_type := CollabType.Document, subscribers := [7], modified_at := 0 }

/-- A registry with seven long-inactive groups, exercising the per-tick
scan bound. -/
def regSeven : CacheState :=
  [("o1", groupStale), ("o2", groupStale), ("o3", groupStale),
   ("o4", groupStale), ("o5", groupStale), ("o6", groupStale),
   ("o7", groupStale)]

end Realtime

namespace Mw

/-- Embeds `actix_web::http::Method`, restricted to the variants the spec's
method-to-action table mentions.  The middleware itself only passes the
method through to the two check services. -/
inductive Method where
  | GET
  | HEAD
  | POST
  | PUT
  | PATCH
  | DELETE
deriving DecidableEq

/-- The parts of a `ServiceRequest` that
`WorkspaceAccessControlMiddleware::call` inspects: whether
`req.match_pattern()` returned `Some`, the raw values of the
`workspace_id` and `object_id` path parameters captured from the matched
pattern, and the HTTP method. -/
structure SReq where
  matched : Bool
  workspaceParam : Option String
  objectParam : Option String
  method : Method

/-- The caller-visible outcome of one middleware `call`: the response
(`Err` short-circuits), whether the wrapped service's future was
awaited, and which of the two permission checks actually ran. -/
structure MwResult (ε ρ : Type) where
  response : Except ε ρ
  handlerInvoked : Bool
  workspaceChecked : Bool
  collabChecked : Bool

/-- The collab-permission phase of `call` (access_control_mw.rs lines
243-257), entered once the workspace phase has passed: run
`check_collab_permission` when `object_id` is present and a Collab
service is registered, short-circuiting on its error. -/
def collabPhase {ε ρ : Type}
    (collabCheck : Option (String → Int → Method → Except ε Unit))
    (uid : Int) (req : SReq) (next : Except ε ρ) (wsChecked : Bool) :
    MwResult ε ρ :=
  match req.objectParam, collabCheck with
  | some oid, some check =>
    match check oid uid req.method with
    | Except.error e =>
      { response := Except.error e, handlerInvoked := false,
        workspaceChecked := wsChecked, collabChecked := true }
    | Except.ok _ =>
      { response := next, handlerInvoked := true,
        workspaceChecked := wsChecked, collabChecked := true }
  | _, _ =>
    { response := next, handlerInvoked := true,
      workspaceChecked := wsChecked, collabChecked := false }

/-- Embeds `WorkspaceAccessControlMiddleware::call` (access_control_mw.rs lines
177-265).  `parseUuid` embeds `Uuid::parse_str(..).ok()`; `wsCheck` and
`collabCheck` are the services registered under
`AccessResource::Workspace` / `AccessResource::Collab`; `resolveUid` the
outcome of resolving the caller's numeric uid through the user cache;
`next` what the wrapped service would respond. -/
def call {ε ρ υ : Type} (parseUuid : String → Option υ)
    (wsCheck : Option (υ → Int → Method → Except ε Unit))
    (collabCheck : Option (String → Int → Method → Except ε Unit))
    (resolveUid : Except ε Int)
    (next : Except ε ρ) (req : SReq) : MwResult ε ρ :=
  if req.matched = false then
    -- no matched route pattern: forward directly
    { response := next, handlerInvoked := true,
      workspaceChecked := false, collabChecked := false }
  else
    -- `path.get(WORKSPACE_ID_PATH).and_then(|id| Uuid::parse_str(id).ok())`
    let workspace_id : Option υ := req.workspaceParam.bind parseUuid
    let collab_object_id : Option String := req.objectParam
    if workspace_id.isSome || collab_object_id.isSome then
      match resolveUid with
      | Except.error e =>
        { response := Except.error e, handlerInvoked := false,
          workspaceChecked := false, collabChecked := false }
      | Except.ok uid =>
        match workspace_id, wsCheck with
        | some wid, some check =>
          match check wid uid req.method with
          | Except.error e =>
            { response := Except.error e, handlerInvoked := false,
              workspaceChecked := true, collabChecked := false }
          | Except.ok _ => collabPhase collabCheck uid req next true
        | _, _ => collabPhase collabCheck uid req next false
    else
      -- neither id available: skip access control, forward
      { response := next, handlerInvoked := true,
        workspaceChecked := false, collabChecked := false }

end Mw

namespace Casbin

/-- Embeds `Action` from `biz/casbin/access_control.rs` (not under `src/`);
the spec's `Action ∈ {Read, Write, Delete}`. -/
inductive Action where
  | Read
  | Write
  | Delete
deriving DecidableEq

/-- Embeds `AFAccessLevel` from `database_entity::dto` (not under `src/`);
the spec's `AccessLevel ∈ {ReadOnly, ReadAndComment, ReadAndWrite,
FullAccess}`. -/
inductive AFAccessLevel where
  | ReadOnly
  | ReadAndComment
  | ReadAndWrite
  | FullAccess
deriving DecidableEq

/-- Modelled from the spec: `AFAccessLevel::can_write` lives in
`database_entity`, which is not under `src/`; the spec's level-to-action
table (§3) marks Write for exactly ReadAndWrite and FullAccess. -/
def AFAccessLevel.can_write : AFAccessLevel → Bool
  | AFAccessLevel.ReadAndWrite | AFAccessLevel.FullAccess => true
  | _ => false

/-- Modelled from the spec: `AFAccessLevel::can_delete` lives in
`database_entity`, which is not under `src/`; the spec's level-to-action
table (§3) marks Delete for exactly FullAccess. -/
def AFAccessLevel.can_delete : AFAccessLevel → Bool
  | AFAccessLevel.FullAccess => true
  | _ => false

/-- The `af_access_levels` array of `PgAdapter::load_policy`
(adapter.rs lines 83-88). -/
def af_access_levels : List AFAccessLevel :=
  [AFAccessLevel.ReadOnly, AFAccessLevel.ReadAndComment,
   AFAccessLevel.ReadAndWrite, AFAccessLevel.FullAccess]

/-- The grouping-policy loop of `PgAdapter::load_policy` (adapter.rs
lines 89-99): for every level push a Read rule, then a Write rule if the
level can write, then a Delete rule if it can delete.  Rules are kept as
`(level, action)` pairs; the source stringifies them with
`i32::from(level).to_string()` and `to_action()` before handing them to
`model.add_policies("g", "g", ..)`. -/
def grouping_policies : List (AFAccessLevel × Action) :=
  af_access_levels.foldl
    (fun acc level =>
      ((acc ++ [(level, Action.Read)])
        ++ (if level.can_write then [(level, Action.Write)] else []))
        ++ (if level.can_delete then [(level, Action.Delete)] else []))
    []

/-- The persisted membership tables the adapter reads
(`workspace_member` and `collab_member`): role and access-level rows per
(uid, id).  Only identity matters to the frame-effect claim. -/
structure PolicyDb where
  workspace_member : List (Int × String × Nat)
  collab_member : List (Int × String × AFAccessLevel)
deriving DecidableEq

/-- Embeds `PgAdapter::save_policy` (adapter.rs lines 111-117): touches nothing
and returns `Ok(())`. -/
def save_policy (db : PolicyDb) : PolicyDb × Except String Unit :=
  (db, Except.ok ())

/-- Embeds `PgAdapter::clear_policy` (adapter.rs lines 118-124). -/
def clear_policy (db : PolicyDb) : PolicyDb × Except String Unit :=
  (db, Except.ok ())

/-- Embeds `PgAdapter::add_policy` (adapter.rs lines 129-135). -/
def add_policy (db : PolicyDb) (_sec _ptype : String) (_rule : List String) :
    PolicyDb × Except String Bool :=
  (db, Except.ok true)

/-- Embeds `PgAdapter::add_policies` (adapter.rs lines 136-147). -/
def add_policies (db : PolicyDb) (_sec _ptype : String)
    (_rules : List (List String)) : PolicyDb × Except String Bool :=
  (db, Except.ok true)

/-- Embeds `PgAdapter::remove_policy` (adapter.rs lines 148-154). -/
def remove_policy (db : PolicyDb) (_sec _ptype : String)
    (_rule : List String) : PolicyDb × Except String Bool :=
  (db, Except.ok true)

/-- Embeds `PgAdapter::remove_policies` (adapter.rs lines 155-166). -/
def remove_policies (db : PolicyDb) (_sec _ptype : String)
    (_rules : List (List String)) : PolicyDb × Except String Bool :=
  (db, Except.ok true)

/-- Embeds `PgAdapter::remove_filtered_policy` (adapter.rs lines 167-179). -/
def remove_filtered_policy (db : PolicyDb) (_sec _ptype : String)
    (_field_index : Nat) (_field_values : List String) :
    PolicyDb × Except String Bool :=
  (db, Except.ok true)

end Casbin

/-- A parser under which no string is a valid UUID (the behaviour of
`Uuid::parse_str(..).ok()` on malformed input). -/
def parseNone : String → Option Nat := fun _ => none

/-- A parser mapping every string to the UUID `7`. -/
def parseSome : String → Option Nat := fun _ => some 7

/-- A workspace check service denying every request with error 403. -/
def wsDenyF : Nat → Int → Mw.Method → Except Nat Unit := fun _ _ _ => Except.error 403

/-- A collab check service denying every request with error 403. -/
def collabDenyF : String → Int → Mw.Method → Except Nat Unit := fun _ _ _ => Except.error 403

/-- A matched request carrying a malformed `workspace_id` path parameter
and no `object_id`. -/
def reqBadWs : Mw.SReq :=
  { matched := true, workspaceParam := some "zz", objectParam := none,
    method := Mw.Method.DELETE }

/-- A matched request carrying a parseable `workspace_id` path parameter
and no `object_id`. -/
def reqGoodWs : Mw.SReq :=
  { matched := true, workspaceParam := some "w", objectParam := none,
    method := Mw.Method.GET }

namespace Realtime

theorem idxOf_append_of_not_mem (e : Ev) (l1 l2 : List Ev) (h : e ∉ l1) :
    idxOf e (l1 ++ l2) = l1.length + idxOf e l2 := by
  induction l1 with
  | nil => simp [idxOf]
  | cons x xs ih =>
    have hx : x ≠ e := by
      rintro rfl; exact h (List.mem_cons_self _ _)
    have hxs : e ∉ xs := fun hm => h (List.mem_cons_of_mem _ hm)
    have h1 : idxOf e ((x :: xs) ++ l2) = idxOf e (xs ++ l2) + 1 := by
      simp [idxOf, hx]
    rw [h1, ih hxs, List.length_cons]
    omega

theorem idxOf_append_of_mem (e : Ev) (l1 l2 : List Ev) (h : e ∈ l1) :
    idxOf e (l1 ++ l2) = idxOf e l1 := by
  induction l1 with
  | nil => cases h
  | cons x xs ih =>
    by_cases hx : x = e
    · simp [idxOf, hx]
    · have hm : e ∈ xs := by
        rcases List.mem_cons.mp h with h' | h'
        · exact absurd h'.symm hx
        · exact h'
      simp [idxOf, hx, ih hm]

theorem idxOf_lt_length (e : Ev) (l : List Ev) (h : e ∈ l) :
    idxOf e l < l.length := by
  induction l with
  | nil => cases h
  | cons x xs ih =>
    by_cases hx : x = e
    · simp [idxOf, hx]
    · have hm : e ∈ xs := by
        rcases List.mem_cons.mp h with h' | h'
        · exact absurd h'.symm hx
        · exact h'
      simp only [idxOf, hx, if_false, List.length_cons]
      exact Nat.succ_lt_succ (ih hm)

theorem stopSeq_append (a b : List Nat) :
    stopSeq (a ++ b) = stopSeq a ++ stopSeq b := by
  induction a with
  | nil => simp [stopSeq]
  | cons x xs ih => simp [stopSeq, ih]

theorem mem_stopSeq_begin {u : Nat} {l : List Nat} :
    Ev.stopBegin u ∈ stopSeq l ↔ u ∈ l := by
  induction l with
  | nil => simp [stopSeq]
  | cons x xs ih => simp [stopSeq, ih]

theorem mem_stopSeq_end {u : Nat} {l : List Nat} :
    Ev.stopEnd u ∈ stopSeq l ↔ u ∈ l := by
  induction l with
  | nil => simp [stopSeq]
  | cons x xs ih => simp [stopSeq, ih]

theorem stopSeq_length (l : List Nat) : (stopSeq l).length = 2 * l.length := by
  induction l with
  | nil => simp [stopSeq]
  | cons x xs ih => simp [stopSeq, ih]; omega

theorem tryWrite_not_mem_stopSeq (l : List Nat) : Ev.tryWrite ∉ stopSeq l := by
  induction l with
  | nil => simp [stopSeq]
  | cons x xs ih => simp [stopSeq, ih]

theorem lockAttempts_stopSeq (l : List Nat) : lockAttempts (stopSeq l) = 0 := by
  unfold lockAttempts
  rw [List.length_eq_zero, List.filter_eq_nil_iff]
  intro a ha
  simp only [beq_iff_eq]
  rintro rfl
  exact tryWrite_not_mem_stopSeq l ha

theorem tickCollectAux_length_le (dbg : Bool) (now : Nat) (st : CacheState) :
    ∀ acc : List String, acc.length ≤ 5 →
      (tickCollectAux dbg now st acc).length ≤ 6 := by
  induction st with
  | nil =>
    intro acc h
    simp only [tickCollectAux]
    omega
  | cons p rest ih =>
    intro acc h
    obtain ⟨oid, g⟩ := p
    simp only [tickCollectAux]
    by_cases hia : is_inactive dbg now g = true
    · rw [if_pos hia]
      by_cases h5 : (acc ++ [oid]).length > 5
      · rw [if_pos h5]
        simp only [List.length_append, List.length_singleton]
        omega
      · rw [if_neg h5]
        refine ih _ ?_
        simp only [List.length_append, List.length_singleton] at h5 ⊢
        omega
    · rw [if_neg hia]
      exact ih acc h

theorem tickCollectAux_mem (dbg : Bool) (now : Nat) (st : CacheState) :
    ∀ (acc : List String) (oid : String), oid ∈ tickCollectAux dbg now st acc →
      oid ∈ acc ∨ ∃ g, (oid, g) ∈ st ∧ is_inactive dbg now g = true := by
  induction st with
  | nil =>
    intro acc oid h
    left
    simpa [tickCollectAux] using h
  | cons p rest ih =>
    intro acc oid h
    obtain ⟨o, g⟩ := p
    simp only [tickCollectAux] at h
    by_cases hia : is_inactive dbg now g = true
    · rw [if_pos hia] at h
      by_cases h5 : (acc ++ [o]).length > 5
      · rw [if_pos h5] at h
        rcases List.mem_append.mp h with h' | h'
        · exact Or.inl h'
        · right
          have : oid = o := by simpa using h'
          exact ⟨g, by simp [this], hia⟩
      · rw [if_neg h5] at h
        rcases ih _ _ h with h' | ⟨g', hg', hia'⟩
        · rcases List.mem_append.mp h' with h'' | h''
          · exact Or.inl h''
          · right
            have : oid = o := by simpa using h''
            exact ⟨g, by simp [this], hia⟩
        · exact Or.inr ⟨g', List.mem_cons_of_mem _ hg', hia'⟩
    · rw [if_neg hia] at h
      rcases ih _ _ h with h' | ⟨g', hg', hia'⟩
      · exact Or.inl h'
      · exact Or.inr ⟨g', List.mem_cons_of_mem _ hg', hia'⟩

theorem lockAttempts_append (a b : List Ev) :
    lockAttempts (a ++ b) = lockAttempts a + lockAttempts b := by
  simp [lockAttempts, List.filter_append]

theorem mem_stopSeq_cases {e : Ev} {l : List Nat} (h : e ∈ stopSeq l) :
    ∃ u, u ∈ l ∧ (e = Ev.stopBegin u ∨ e = Ev.stopEnd u) := by
  induction l with
  | nil => cases h
  | cons x xs ih =>
    rcases List.mem_cons.mp h with h' | h'
    · exact ⟨x, by simp, Or.inl h'⟩
    · rcases List.mem_cons.mp h' with h'' | h''
      · exact ⟨x, by simp, Or.inr h''⟩
      · obtain ⟨u, hu, hcase⟩ := ih h''
        exact ⟨u, List.mem_cons_of_mem _ hu, hcase⟩

theorem evict_not_mem_stopSeq (oid : String) (l : List Nat) :
    Ev.evictCache oid ∉ stopSeq l := by
  intro h
  rcases mem_stopSeq_cases h with ⟨u, _, h' | h'⟩ <;> simp at h'

theorem remove_group_trace_eq (st : CacheState) (oid : String) (g : CollabGroup)
    (h : lookupGroup st oid = some g) :
    (remove_group true true st oid).2 = removedTrace oid g.subscribers
    ∧ (remove_group true true st oid).1 = eraseGroup st oid := by
  constructor <;> simp [remove_group, removedTrace, h]

theorem idx_removedTrace_head (oid : String) (subs : List Nat) :
    idxOf Ev.tryWrite (removedTrace oid subs) = 0
    ∧ idxOf (Ev.removeEntry oid) (removedTrace oid subs) = 1
    ∧ idxOf Ev.releaseWrite (removedTrace oid subs) = 2
    ∧ idxOf (Ev.flushCollab oid) (removedTrace oid subs) = 3 := by
  refine ⟨?_, ?_, ?_, ?_⟩ <;> simp [removedTrace, idxOf]

theorem idx_removedTrace_stopBegin (oid : String) (subs : List Nat) (u : Nat) :
    idxOf (Ev.stopBegin u) (removedTrace oid subs)
      = 4 + idxOf (Ev.stopBegin u) (stopSeq subs ++ [Ev.evictCache oid]) := by
  simp [removedTrace, idxOf]
  ring

theorem idx_removedTrace_stopEnd (oid : String) (subs : List Nat) (u : Nat) :
    idxOf (Ev.stopEnd u) (removedTrace oid subs)
      = 4 + idxOf (Ev.stopEnd u) (stopSeq subs ++ [Ev.evictCache oid]) := by
  simp [removedTrace, idxOf]
  ring

theorem idx_removedTrace_evict (oid : String) (subs : List Nat) :
    idxOf (Ev.evictCache oid) (removedTrace oid subs)
      = 4 + (stopSeq subs).length := by
  have h1 : idxOf (Ev.evictCache oid) (removedTrace oid subs)
      = 4 + idxOf (Ev.evictCache oid) (stopSeq subs ++ [Ev.evictCache oid]) := by
    simp [removedTrace, idxOf]
    ring
  have h2 : idxOf (Ev.evictCache oid) (stopSeq subs ++ [Ev.evictCache oid])
      = (stopSeq subs).length + idxOf (Ev.evictCache oid) [Ev.evictCache oid] :=
    idxOf_append_of_not_mem _ _ _ (evict_not_mem_stopSeq oid subs)
  have h3 : idxOf (Ev.evictCache oid) [Ev.evictCache oid] = 0 := by
    simp [idxOf]
  omega

end Realtime

open Realtime Mw Casbin

/-! ## Claim theorems -/

/-- C1: the spec (and the doc comments of `tick` and `is_inactive`)
say the reaper removes a group when it has no subscribers **or** when it
timed out, so a freshly modified group with zero subscribers should be
removed on the next tick.  Evaluating the code at that input: the group
is empty, yet `tick` leaves the registry unchanged and removes nothing,
because the scan tests only `is_inactive()`. -/
theorem tick_keeps_fresh_empty_group :
    is_empty groupFresh = true
    ∧ is_inactive false 1000 groupFresh = false
    ∧ tick true true true false 1000 regFresh = (regFresh, []) := by
  decide

/-- C3: `load_policy` emits a Read grouping rule for every access
level, a Write grouping rule exactly for ReadAndWrite and FullAccess,
and a Delete grouping rule exactly for FullAccess. -/
theorem load_policy_grouping_table :
    ∀ l : AFAccessLevel,
      (l, Action.Read) ∈ grouping_policies
      ∧ ((l, Action.Write) ∈ grouping_policies
          ↔ (l = AFAccessLevel.ReadAndWrite ∨ l = AFAccessLevel.FullAccess))
      ∧ ((l, Action.Delete) ∈ grouping_policies ↔ l = AFAccessLevel.FullAccess) := by
  intro l
  cases l <;> decide

/-- C4: `is_inactive()` holds exactly when the elapsed seconds since
`modified_at` strictly exceed the type's timeout; the release timeouts
are 10 min for Document, 60 min for Database and DatabaseRow, 120 min
for WorkspaceDatabase, Folder and UserAwareness, and debug builds use a
uniform 2 min. -/
theorem is_inactive_iff_elapsed_gt_timeout :
    ∀ (dbg : Bool) (now : Nat) (g : CollabGroup),
      (is_inactive dbg now g = true
        ↔ now - g.modified_at > timeout_secs dbg g.collab_type)
      ∧ timeout_secs false CollabType.Document = 10 * 60
      ∧ timeout_secs false CollabType.Database = 60 * 60
      ∧ timeout_secs false CollabType.DatabaseRow = 60 * 60
      ∧ timeout_secs false CollabType.WorkspaceDatabase = 2 * 60 * 60
      ∧ timeout_secs false CollabType.Folder = 2 * 60 * 60
      ∧ timeout_secs false CollabType.UserAwareness = 2 * 60 * 60
      ∧ timeout_secs true g.collab_type = 2 * 60 := by
  intro dbg now g
  refine ⟨?_, rfl, rfl, rfl, rfl, rfl, rfl, rfl⟩
  simp [is_inactive, elapsed_secs]

/-- C6 (counterexample): with seven inactive groups in the registry, a
single tick removes six of them, not at most five — the scan breaks
only once the accumulator's length exceeds 5, i.e. after the sixth
candidate was already collected. -/
theorem tick_removes_six :
    ¬((tick true true true false 10000 regSeven).2.length ≤ 5)
    ∧ (tick true true true false 10000 regSeven).2.length = 6
    ∧ (tick true true true false 10000 regSeven).1 = [("o7", groupStale)] := by
  decide

/-- C6 (amended): a single tick removes at most **six** groups — the
`> 5` break fires after the sixth candidate is pushed — and every
removed id belonged to a group for which `is_inactive()` held. -/
theorem tick_removes_at_most_six_inactive :
    ∀ (readOk writeOk subsOk dbg : Bool) (now : Nat) (st : CacheState),
      (tick readOk writeOk subsOk dbg now st).2.length ≤ 6
      ∧ ∀ oid ∈ (tick readOk writeOk subsOk dbg now st).2,
          ∃ g, (oid, g) ∈ st ∧ is_inactive dbg now g = true := by
  intro readOk writeOk subsOk dbg now st
  have h2 : (tick readOk writeOk subsOk dbg now st).2
      = if readOk then tickCollect dbg now st else [] := rfl
  constructor
  · rw [h2]
    by_cases hr : readOk
    · rw [if_pos hr]
      exact tickCollectAux_length_le dbg now st [] (by simp)
    · rw [if_neg hr]
      simp
  · intro oid hmem
    rw [h2] at hmem
    by_cases hr : readOk
    · rw [if_pos hr] at hmem
      rcases tickCollectAux_mem dbg now st [] oid hmem with h' | h'
      · cases h'
      · exact h'
    · rw [if_neg hr] at hmem
      cases hmem

/-- C9: none of the policy-store mutators of the adapter touches the
database; each returns success unconditionally. -/
theorem adapter_mutators_pure :
    ∀ (db : PolicyDb) (sec ptype : String) (rule : List String)
      (rules : List (List String)) (fi : Nat) (fv : List String),
      save_policy db = (db, Except.ok ())
      ∧ clear_policy db = (db, Except.ok ())
      ∧ add_policy db sec ptype rule = (db, Except.ok true)
      ∧ add_policies db sec ptype rules = (db, Except.ok true)
      ∧ remove_policy db sec ptype rule = (db, Except.ok true)
      ∧ remove_policies db sec ptype rules = (db, Except.ok true)
      ∧ remove_filtered_policy db sec ptype fi fv = (db, Except.ok true) := by
  intro db sec ptype rule rules fi fv
  exact ⟨rfl, rfl, rfl, rfl, rfl, rfl, rfl⟩

/-- C5 (counterexample): the claim says the removed group's
subscriptions are stopped **in parallel**, which would mean every stop
begins before any of them completes; in the code each
`subscriber.stop()` is awaited before the next begins, so on a group
with subscribers 1 and 2 the stop of subscriber 1 completes before the
stop of subscriber 2 begins. -/
theorem remove_group_stops_not_parallel :
    ¬ occursBefore (Ev.stopBegin 2) (Ev.stopEnd 1) (remove_group true true regTwo "o").2
    ∧ occursBefore (Ev.stopEnd 1) (Ev.stopBegin 2) (remove_group true true regTwo "o").2 := by
  decide

/-- C5 (amended): `remove_group` acquires the registry write lock,
removes the entry, releases the write lock **before** the flush (the
lock is never held while the flush runs), flushes the replica, then
stops every Subscription **sequentially** — each stop completes before
the next begins, rather than in parallel — and finally notifies the
storage layer to evict its in-memory cache entry. -/
theorem remove_group_event_order :
    ∀ (st : CacheState) (oid : String) (g : CollabGroup),
      lookupGroup st oid = some g → g.subscribers.Nodup →
      occursBefore Ev.releaseWrite (Ev.flushCollab oid) (remove_group true true st oid).2
      ∧ occursBefore Ev.tryWrite (Ev.removeEntry oid) (remove_group true true st oid).2
      ∧ occursBefore (Ev.removeEntry oid) Ev.releaseWrite (remove_group true true st oid).2
      ∧ (∀ u ∈ g.subscribers,
          occursBefore (Ev.flushCollab oid) (Ev.stopBegin u) (remove_group true true st oid).2)
      ∧ (∀ u ∈ g.subscribers,
          occursBefore (Ev.stopEnd u) (Ev.evictCache oid) (remove_group true true st oid).2)
      ∧ (∀ (l1 l2 l3 : List Nat) (u v : Nat),
          g.subscribers = l1 ++ u :: l2 ++ v :: l3 →
          occursBefore (Ev.stopEnd u) (Ev.stopBegin v) (remove_group true true st oid).2)
      ∧ (remove_group true true st oid).1 = eraseGroup st oid := by
  intro st oid g hlk hnd
  obtain ⟨htr, hst⟩ := remove_group_trace_eq st oid g hlk
  rw [htr]
  obtain ⟨hi0, hi1, hi2, hi3⟩ := idx_removedTrace_head oid g.subscribers
  refine ⟨?_, ?_, ?_, ?_, ?_, ?_, hst⟩
  · exact ⟨by simp [removedTrace], by simp [removedTrace], by rw [hi2, hi3]; omega⟩
  · exact ⟨by simp [removedTrace], by simp [removedTrace], by rw [hi0, hi1]; omega⟩
  · exact ⟨by simp [removedTrace], by simp [removedTrace], by rw [hi1, hi2]; omega⟩
  · intro u hu
    refine ⟨by simp [removedTrace], ?_, ?_⟩
    · simp [removedTrace, mem_stopSeq_begin, hu]
    · rw [hi3, idx_removedTrace_stopBegin]
      omega
  · intro u hu
    have hmem : Ev.stopEnd u ∈ stopSeq g.subscribers := mem_stopSeq_end.mpr hu
    refine ⟨?_, by simp [removedTrace], ?_⟩
    · simp [removedTrace, mem_stopSeq_end, hu]
    · rw [idx_removedTrace_stopEnd, idx_removedTrace_evict,
        idxOf_append_of_mem _ _ _ hmem]
      have := idxOf_lt_length _ _ hmem
      omega
  · intro l1 l2 l3 u v hdec
    have hu : u ∈ g.subscribers := by rw [hdec]; simp
    have hv : v ∈ g.subscribers := by rw [hdec]; simp
    rw [hdec] at hnd
    rw [List.nodup_append] at hnd
    obtain ⟨h12, h3, hd⟩ := hnd
    rw [List.nodup_append] at h12
    obtain ⟨hndl1, hndul2, hd2⟩ := h12
    have hu_l1 : u ∉ l1 := fun hmem => hd2 hmem (by simp)
    have hv_12 : v ∉ l1 ++ u :: l2 := fun hmem => hd hmem (by simp)
    have hv_l1 : v ∉ l1 := fun hmem => hv_12 (List.mem_append_left _ hmem)
    have hv_ul2 : v ∉ u :: l2 := fun hmem => hv_12 (List.mem_append_right _ hmem)
    have hseq : stopSeq (l1 ++ u :: l2 ++ v :: l3)
        = (stopSeq l1 ++ stopSeq (u :: l2)) ++ stopSeq (v :: l3) := by
      rw [stopSeq_append, stopSeq_append]
    have hEndU_mem : Ev.stopEnd u ∈ stopSeq (l1 ++ u :: l2 ++ v :: l3) := by
      rw [← hdec]; exact mem_stopSeq_end.mpr hu
    have hBeginV_mem : Ev.stopBegin v ∈ stopSeq (l1 ++ u :: l2 ++ v :: l3) := by
      rw [← hdec]; exact mem_stopSeq_begin.mpr hv
    -- position of `stopEnd u` inside the stop block
    have hEndU_idx : idxOf (Ev.stopEnd u) (stopSeq (l1 ++ u :: l2 ++ v :: l3))
        = 2 * l1.length + 1 := by
      rw [hseq]
      have hendu_in : Ev.stopEnd u ∈ stopSeq l1 ++ stopSeq (u :: l2) :=
        List.mem_append_right _ (mem_stopSeq_end.mpr (by simp))
      rw [idxOf_append_of_mem _ _ _ hendu_in,
        idxOf_append_of_not_mem _ _ _ (fun hmem => hu_l1 (mem_stopSeq_end.mp hmem)),
        stopSeq_length]
      simp [stopSeq, idxOf]
    -- position of `stopBegin v` inside the stop block
    have hBeginV_idx : idxOf (Ev.stopBegin v) (stopSeq (l1 ++ u :: l2 ++ v :: l3))
        = 2 * l1.length + 2 * (l2.length + 1) := by
      rw [hseq]
      have hbv_notin : Ev.stopBegin v ∉ stopSeq l1 ++ stopSeq (u :: l2) := by
        intro hmem
        rcases List.mem_append.mp hmem with h' | h'
        · exact hv_l1 (mem_stopSeq_begin.mp h')
        · exact hv_ul2 (mem_stopSeq_begin.mp h')
      rw [idxOf_append_of_not_mem _ _ _ hbv_notin]
      have hlen : (stopSeq l1 ++ stopSeq (u :: l2)).length
          = 2 * l1.length + 2 * (l2.length + 1) := by
        simp [List.length_append, stopSeq_length, stopSeq]
        ring
      rw [hlen]
      simp [stopSeq, idxOf]
    refine ⟨?_, ?_, ?_⟩
    · simp only [removedTrace, List.mem_append]
      left; right
      rw [hdec]
      exact hEndU_mem
    · simp only [removedTrace, List.mem_append]
      left; right
      rw [hdec]
      exact hBeginV_mem
    · rw [idx_removedTrace_stopEnd, idx_removedTrace_stopBegin, hdec,
        idxOf_append_of_mem _ _ _ hEndU_mem,
        idxOf_append_of_mem _ _ _ hBeginV_mem,
        hEndU_idx, hBeginV_idx]
      omega

/-- C5 (witness): on a registry holding a group with subscribers 1 and
2, the hypotheses of the order theorem hold and the write lock is
released before the flush. -/
theorem remove_group_event_order_witness :
    lookupGroup regTwo "o" = some groupTwoSubs
    ∧ groupTwoSubs.subscribers.Nodup
    ∧ occursBefore Ev.releaseWrite (Ev.flushCollab "o") (remove_group true true regTwo "o").2 :=
  ⟨by decide, by decide,
    (remove_group_event_order regTwo "o" groupTwoSubs (by decide) (by decide)).1⟩

/-- C7 (counterexample): with the group for `"o"` already in the
registry, `create_group_if_need` hands the caller `()` — not the
existing group — and when the write lock cannot be acquired it also
hands the caller `()`, indistinguishable from the previous outcome, so
no `RegistryBusy` error is observable to retry on. -/
theorem create_group_returns_unit :
    (create_group_if_need true regTwo 1 "w" "o" CollabType.Document 5).ret
        = CreateReturn.unit
    ∧ (create_group_if_need true regTwo 1 "w" "o" CollabType.Document 5).ret
        ≠ CreateReturn.existingGroup groupTwoSubs
    ∧ (create_group_if_need false regTwo 1 "w" "o" CollabType.Document 5).ret
        ≠ CreateReturn.registryBusy
    ∧ (create_group_if_need false regTwo 1 "w" "o" CollabType.Document 5).ret
        = (create_group_if_need true regTwo 1 "w" "o" CollabType.Document 5).ret := by
  decide

/-- C7 (amended): when a group for the object id is already present,
`create_group_if_need` leaves the registry unchanged, logs a warning,
and returns `()` without exposing the existing group; when the registry
write lock cannot be acquired, it logs an error and returns `()` — the
caller-visible return value is the same on both paths, so no
`RegistryBusy` error reaches the caller. -/
theorem create_group_if_need_observable :
    ∀ (st : CacheState) (uid : Int) (ws oid : String) (ct : CollabType) (now : Nat),
      ((lookupGroup st oid).isSome = true →
        create_group_if_need true st uid ws oid ct now
          = { state := st, trace := [Ev.tryWrite, Ev.logWarn],
              ret := CreateReturn.unit })
      ∧ create_group_if_need false st uid ws oid ct now
          = { state := st, trace := [Ev.tryWrite, Ev.logError],
              ret := CreateReturn.unit }
      ∧ (create_group_if_need false st uid ws oid ct now).ret
          = (create_group_if_need true st uid ws oid ct now).ret := by
  intro st uid ws oid ct now
  refine ⟨?_, rfl, ?_⟩
  · intro h
    simp [create_group_if_need, h]
  · by_cases h : (lookupGroup st oid).isSome <;>
      simp [create_group_if_need, h]

/-- C7 (witness): the registry `regTwo` contains a group for `"o"`, and
the call returns `()` with only a warning logged. -/
theorem create_group_if_need_observable_witness :
    (lookupGroup regTwo "o").isSome = true
    ∧ create_group_if_need true regTwo 1 "w" "o" CollabType.Document 5
        = { state := regTwo, trace := [Ev.tryWrite, Ev.logWarn],
            ret := CreateReturn.unit } :=
  ⟨by decide,
    (create_group_if_need_observable regTwo 1 "w" "o" CollabType.Document 5).1 (by decide)⟩

/-- C8 (counterexample): when the single `try_write` attempt fails,
`remove_group` records exactly one lock attempt, logs an error and
returns with the group still present — it is abandoned, not retried —
and `create_group_if_need` likewise gives up after its single attempt
without creating the group. -/
theorem remove_group_single_attempt :
    lockAttempts (remove_group false true regTwo "o").2 = 1
    ∧ (remove_group false true regTwo "o").1 = regTwo
    ∧ lookupGroup regTwo "o" = some groupTwoSubs
    ∧ lockAttempts (create_group_if_need false [] 1 "w" "o2" CollabType.Document 5).trace = 1
    ∧ (create_group_if_need false [] 1 "w" "o2" CollabType.Document 5).state = [] := by
  decide

/-- C8 (amended): registry-lock contention is not retried.  Every call
of `remove_group` and `create_group_if_need` makes exactly one
lock-acquisition attempt; on contention each logs an error and abandons
the operation with the registry unchanged, and a busy read lock makes
`tick` remove nothing. -/
theorem lock_contention_single_try :
    ∀ (lockOk subsOk writeOk dbg : Bool) (st : CacheState) (oid ws : String)
      (uid : Int) (ct : CollabType) (now : Nat),
      lockAttempts (remove_group lockOk subsOk st oid).2 = 1
      ∧ lockAttempts (create_group_if_need lockOk st uid ws oid ct now).trace = 1
      ∧ remove_group false subsOk st oid = (st, [Ev.tryWrite, Ev.logError])
      ∧ (create_group_if_need false st uid ws oid ct now).state = st
      ∧ (create_group_if_need false st uid ws oid ct now).trace
          = [Ev.tryWrite, Ev.logError]
      ∧ tick false writeOk subsOk dbg now st = (st, []) := by
  intro lockOk subsOk writeOk dbg st oid ws uid ct now
  refine ⟨?_, ?_, rfl, rfl, rfl, rfl⟩
  · cases lockOk with
    | false => rfl
    | true =>
      cases hl : lookupGroup st oid with
      | none =>
        have htr : (remove_group true subsOk st oid).2
            = [Ev.tryWrite, Ev.removeEntry oid, Ev.releaseWrite, Ev.logError,
               Ev.evictCache oid] := by
          simp [remove_group, hl]
        rw [htr]
        rfl
      | some g =>
        have hstops : lockAttempts (if subsOk then stopSeq g.subscribers else []) = 0 := by
          cases subsOk
          · rfl
          · simpa using lockAttempts_stopSeq g.subscribers
        have htr : (remove_group true subsOk st oid).2
            = [Ev.tryWrite, Ev.removeEntry oid, Ev.releaseWrite, Ev.flushCollab oid]
                ++ (if subsOk then stopSeq g.subscribers else [])
                ++ [Ev.evictCache oid] := by
          simp [remove_group, hl]
        rw [htr, lockAttempts_append, lockAttempts_append, hstops]
        rfl
  · cases lockOk with
    | false => rfl
    | true =>
      by_cases h : (lookupGroup st oid).isSome <;>
        simp only [create_group_if_need, h, if_true, if_false, Bool.true_eq_false,
          if_neg (by simp : ¬(true = false)), if_pos] <;>
        rfl

/-- C2 (counterexample): a matched request whose `workspace_id` path
parameter is present but is not a parseable UUID, with a workspace
service registered that denies everything.  The claim as stated requires
the workspace permission check to run and its failure to short-circuit
with an error before the handler; the middleware instead performs no
check and invokes the handler successfully. -/
theorem malformed_workspace_id_bypasses_check :
    (Mw.call parseNone (some wsDenyF) (some collabDenyF)
        (Except.ok 1) (Except.ok (0 : Nat)) reqBadWs).workspaceChecked = false
    ∧ (Mw.call parseNone (some wsDenyF) (some collabDenyF)
        (Except.ok 1) (Except.ok (0 : Nat)) reqBadWs).handlerInvoked = true
    ∧ (Mw.call parseNone (some wsDenyF) (some collabDenyF)
        (Except.ok 1) (Except.ok (0 : Nat)) reqBadWs).response = Except.ok 0 :=
  ⟨rfl, rfl, rfl⟩

/-- C2 (amended): with both services registered and the uid resolved,
the middleware forwards matched requests carrying neither a parseable
`workspace_id` nor an `object_id` without any check; when a
**parseable** `workspace_id` is present it first checks the workspace
permission (short-circuiting with the check's error before the collab
check and without invoking the handler), then checks the collab
permission when `object_id` is present (likewise short-circuiting), and
invokes the handler exactly when every applicable check passed.  A
present but unparseable `workspace_id` is treated as absent. -/
theorem middleware_check_order :
    ∀ (ε ρ υ : Type) (parse : String → Option υ)
      (f : υ → Int → Mw.Method → Except ε Unit)
      (g : String → Int → Mw.Method → Except ε Unit)
      (uid : Int) (next : Except ε ρ) (req : Mw.SReq),
      (req.matched = false →
        Mw.call parse (some f) (some g) (Except.ok uid) next req
          = ⟨next, true, false, false⟩)
      ∧ (req.matched = true → req.workspaceParam.bind parse = none →
          req.objectParam = none →
          Mw.call parse (some f) (some g) (Except.ok uid) next req
            = ⟨next, true, false, false⟩)
      ∧ (∀ w e, req.matched = true → req.workspaceParam.bind parse = some w →
          f w uid req.method = Except.error e →
          Mw.call parse (some f) (some g) (Except.ok uid) next req
            = ⟨Except.error e, false, true, false⟩)
      ∧ (∀ w, req.matched = true → req.workspaceParam.bind parse = some w →
          f w uid req.method = Except.ok () → req.objectParam = none →
          Mw.call parse (some f) (some g) (Except.ok uid) next req
            = ⟨next, true, true, false⟩)
      ∧ (∀ w o e, req.matched = true → req.workspaceParam.bind parse = some w →
          f w uid req.method = Except.ok () → req.objectParam = some o →
          g o uid req.method = Except.error e →
          Mw.call parse (some f) (some g) (Except.ok uid) next req
            = ⟨Except.error e, false, true, true⟩)
      ∧ (∀ w o, req.matched = true → req.workspaceParam.bind parse = some w →
          f w uid req.method = Except.ok () → req.objectParam = some o →
          g o uid req.method = Except.ok () →
          Mw.call parse (some f) (some g) (Except.ok uid) next req
            = ⟨next, true, true, true⟩)
      ∧ (∀ o e, req.matched = true → req.workspaceParam.bind parse = none →
          req.objectParam = some o → g o uid req.method = Except.error e →
          Mw.call parse (some f) (some g) (Except.ok uid) next req
            = ⟨Except.error e, false, false, true⟩)
      ∧ (∀ o, req.matched = true → req.workspaceParam.bind parse = none →
          req.objectParam = some o → g o uid req.method = Except.ok () →
          Mw.call parse (some f) (some g) (Except.ok uid) next req
            = ⟨next, true, false, true⟩) := by
  intro ε ρ υ parse f g uid next req
  refine ⟨?_, ?_, ?_, ?_, ?_, ?_, ?_, ?_⟩
  · intro hm
    simp [Mw.call, hm]
  · intro hm hw ho
    simp [Mw.call, hm, hw, ho]
  · intro w e hm hw hf
    simp [Mw.call, Mw.collabPhase, hm, hw, hf]
  · intro w hm hw hf ho
    simp [Mw.call, Mw.collabPhase, hm, hw, hf, ho]
  · intro w o e hm hw hf ho hg
    simp [Mw.call, Mw.collabPhase, hm, hw, hf, ho, hg]
  · intro w o hm hw hf ho hg
    simp [Mw.call, Mw.collabPhase, hm, hw, hf, ho, hg]
  · intro o e hm hw ho hg
    simp [Mw.call, Mw.collabPhase, hm, hw, ho, hg]
  · intro o hm hw ho hg
    simp [Mw.call, Mw.collabPhase, hm, hw, ho, hg]

/-- C2 (witness): a matched request with a parseable `workspace_id`, no
`object_id`, and a denying workspace service: the check runs and its
error is returned without invoking the handler. -/
theorem middleware_check_order_witness :
    wsDenyF 7 1 Mw.Method.GET = Except.error 403
    ∧ Mw.call parseSome (some wsDenyF) (some collabDenyF)
        (Except.ok 1) (Except.ok (0 : Nat)) reqGoodWs
        = ⟨Except.error 403, false, true, false⟩ :=
  ⟨rfl,
    (middleware_check_order Nat Nat Nat parseSome wsDenyF collabDenyF 1
        (Except.ok 0) reqGoodWs).2.2.1 7 403 rfl rfl rfl⟩

/-- For a matched or unmatched request whose `workspace_id` parameter is
absent, the workspace check never runs, and the collab check can only
have run when `object_id` is present. -/
theorem call_wsParam_none {ε ρ υ : Type} (parse : String → Option υ)
    (wsC : Option (υ → Int → Mw.Method → Except ε Unit))
    (cC : Option (String → Int → Mw.Method → Except ε Unit))
    (ruid : Except ε Int) (next : Except ε ρ) (mt : Bool)
    (oP : Option String) (m : Mw.Method) :
    (Mw.call parse wsC cC ruid next ⟨mt, none, oP, m⟩).workspaceChecked = false
    ∧ ((Mw.call parse wsC cC ruid next ⟨mt, none, oP, m⟩).collabChecked = true →
        oP.isSome = true) := by
  cases mt
  · exact ⟨rfl, fun h => Bool.noConfusion h⟩
  · rcases oP with _ | o
    · exact ⟨rfl, fun h => Bool.noConfusion h⟩
    · rcases ruid with e | u
      · exact ⟨rfl, fun _ => rfl⟩
      · rcases cC with _ | c
        · exact ⟨rfl, fun _ => rfl⟩
        · cases hc : c o u m with
          | error e =>
            refine ⟨?_, fun _ => rfl⟩
            simp [Mw.call, Mw.collabPhase, hc]
          | ok v =>
            refine ⟨?_, fun _ => rfl⟩
            simp [Mw.call, Mw.collabPhase, hc]

/-- C10: a present but unparseable `workspace_id` path parameter is
silently discarded: no workspace check runs, the request is not
rejected on its account, the middleware behaves exactly as if the
parameter were absent, and a collab check can only run when `object_id`
is also present. -/
theorem malformed_uuid_treated_as_absent :
    ∀ (ε ρ υ : Type) (parse : String → Option υ)
      (wsC : Option (υ → Int → Mw.Method → Except ε Unit))
      (cC : Option (String → Int → Mw.Method → Except ε Unit))
      (ruid : Except ε Int) (next : Except ε ρ) (mt : Bool)
      (oP : Option String) (m : Mw.Method) (s : String),
      parse s = none →
      Mw.call parse wsC cC ruid next ⟨mt, some s, oP, m⟩
        = Mw.call parse wsC cC ruid next ⟨mt, none, oP, m⟩
      ∧ (Mw.call parse wsC cC ruid next ⟨mt, some s, oP, m⟩).workspaceChecked = false
      ∧ ((Mw.call parse wsC cC ruid next ⟨mt, some s, oP, m⟩).collabChecked = true →
          oP.isSome = true) := by
  intro ε ρ υ parse wsC cC ruid next mt oP m s hp
  have heq : Mw.call parse wsC cC ruid next ⟨mt, some s, oP, m⟩
      = Mw.call parse wsC cC ruid next ⟨mt, none, oP, m⟩ := by
    simp [Mw.call, Mw.collabPhase, hp]
  refine ⟨heq, ?_, ?_⟩
  · rw [heq]
    exact (call_wsParam_none parse wsC cC ruid next mt oP m).1
  · rw [heq]
    exact (call_wsParam_none parse wsC cC ruid next mt oP m).2

/-- C10 (witness): at a concrete matched request whose `workspace_id`
does not parse, the call equals the call on the same request with the
parameter absent. -/
theorem malformed_uuid_treated_as_absent_witness :
    parseNone "zz" = none
    ∧ Mw.call parseNone (some wsDenyF) (some collabDenyF)
        (Except.ok 1) (Except.ok (0 : Nat)) ⟨true, some "zz", none, Mw.Method.DELETE⟩
      = Mw.call parseNone (some wsDenyF) (some collabDenyF)
        (Except.ok 1) (Except.ok (0 : Nat)) ⟨true, none, none, Mw.Method.DELETE⟩ :=
  ⟨rfl,
    (malformed_uuid_treated_as_absent Nat Nat Nat parseNone (some wsDenyF)
        (some collabDenyF) (Except.ok 1) (Except.ok 0) true none
        Mw.Method.DELETE "zz" rfl).1⟩
